import Mathlib

/-!
Verification development for the mesh-optimization core in
src/cad-optimizer-wasm/src/lib.rs.

Modelling conventions:
* f32 values are modelled as exact rationals (ℚ).  All arithmetic the
  optimizer performs on settings, LOD levels, decimation counts and frustum
  corners is exact at the inputs used by the theorems below, so the rational
  idealization agrees with the f32 program there.
* For the smooth-normal computation the IEEE special values matter (glam's
  Vec3::normalize divides by the length with no zero guard), so there the
  scalars are a four-constructor type F = finite ℚ | inf | neginf | nan with
  IEEE-style propagation rules and an abstract square root.
* usize / u32 are modelled as ℕ; the one place where u32 wrap-around is
  reachable (the index offset in perform_boolean_union, compiled for wasm32
  in release mode) carries an explicit % 2^32.
* Rust panics (out-of-bounds slice indexing) are modelled by Option: a
  function that can panic returns none exactly when the Rust code traps.
* The serde / wasm-bindgen boundary (parsing a JsValue, serializing the
  result) is host glue: parsing is modelled by handing the function an
  already-parsed value or a parse error, serialization as always succeeding.
-/

/-- Mesh buffers as exchanged with the host (struct MeshData in lib.rs):
a flat f32 vertex buffer and a u32 index buffer. -/
structure MeshData where
  vertices : List ℚ
  indices : List ℕ
deriving DecidableEq

/-- struct PerformanceSettings in lib.rs. -/
structure PerformanceSettings where
  target_fps : ℕ
  resolution_scale : ℚ
  lod_bias : ℚ
  max_triangles : ℕ
  frustum_culling : Bool
deriving DecidableEq

/-- struct PerformanceStats in lib.rs. -/
structure PerformanceStats where
  fps : ℚ
  frame_time : ℚ
  triangle_count : ℕ
  draw_calls : ℕ
  memory_usage : ℚ
  gpu_usage : ℚ
deriving DecidableEq

/-- struct CADOptimizer in lib.rs: the aggregate owning the settings and the
latest frame statistics. -/
structure CADOptimizer where
  settings : PerformanceSettings
  stats : PerformanceStats
deriving DecidableEq

/-- struct LodLevel in lib.rs. -/
structure LodLevel where
  distance : ℚ
  detail_ratio : ℚ
deriving DecidableEq

/-- CADOptimizer::new — the default settings and zeroed stats. -/
def create : CADOptimizer :=
  { settings :=
      { target_fps := 60
        resolution_scale := 1
        lod_bias := 0
        max_triangles := 1000000
        frustum_culling := true }
    stats :=
      { fps := 0
        frame_time := 0
        triangle_count := 0
        draw_calls := 0
        memory_usage := 0
        gpu_usage := 0 } }

/-- CADOptimizer::configure.  The serde parse of the incoming JsValue is host
glue, so the function receives the parse outcome (Except String
PerformanceSettings).  On a parse error it returns early with the error and
the optimizer untouched; only on success does it assign self.settings. -/
def configure (o : CADOptimizer) (parsed : Except String PerformanceSettings) :
    CADOptimizer × Except String Unit :=
  match parsed with
  | Except.error e => (o, Except.error ((r"Failed to parse config: ") ++ e))
  | Except.ok c => ({ o with settings := c }, Except.ok ())

/-- CADOptimizer::update_stats — writes exactly the four fields fps,
frame_time, triangle_count, draw_calls. -/
def update_stats (o : CADOptimizer) (fps frame_time : ℚ)
    (triangles draw_calls : ℕ) : CADOptimizer :=
  { o with stats :=
      { o.stats with
          fps := fps
          frame_time := frame_time
          triangle_count := triangles
          draw_calls := draw_calls } }

/-- CADOptimizer::calculate_optimal_settings — the three-zone controller on
fps against target_fps (the serialization of the returned settings is host
glue; the function's effect is the mutation of self.settings). -/
def calculate_optimal_settings (o : CADOptimizer) : CADOptimizer :=
  if o.stats.fps < (o.settings.target_fps : ℚ) * 0.8 then
    { o with settings :=
        { o.settings with
            resolution_scale := max (o.settings.resolution_scale * 0.9) 0.5
            lod_bias := o.settings.lod_bias + 0.1 } }
  else if o.stats.fps > (o.settings.target_fps : ℚ) * 1.2 then
    { o with settings :=
        { o.settings with
            resolution_scale := min (o.settings.resolution_scale * 1.1) 1
            lod_bias := max (o.settings.lod_bias - 0.05) 0 } }
  else o

/-- The number of LOD levels chosen by CADOptimizer::calculate_lod_levels
from the mesh-complexity estimate. -/
def num_levels (complexity : ℕ) : ℕ :=
  if complexity > 100000 then 4 else if complexity > 10000 then 3 else 2

/-- CADOptimizer::calculate_lod_levels — the loop pushing one LodLevel per
i in 0..num_levels (serialization of the result is host glue). -/
def calculate_lod_levels (o : CADOptimizer) (complexity : ℕ) : List LodLevel :=
  (List.range (num_levels complexity)).map (fun (i : ℕ) =>
    { distance := (50 * ((i : ℚ) + 1)) * (1 + o.settings.lod_bias)
      detail_ratio := 1 - (i : ℚ) / (num_levels complexity : ℚ) })

/-- Clip-space 4-vector (a glam Vec4 / matrix column). -/
structure Vec4Q where
  x : ℚ
  y : ℚ
  z : ℚ
  w : ℚ
deriving DecidableEq

/-- A 3D point (glam Vec3). -/
structure Vec3Q where
  x : ℚ
  y : ℚ
  z : ℚ
deriving DecidableEq

/-- Column-major 4×4 matrix (glam Mat4, as built by Mat4::from_cols_array). -/
structure Mat4Q where
  x_axis : Vec4Q
  y_axis : Vec4Q
  z_axis : Vec4Q
  w_axis : Vec4Q
deriving DecidableEq

/-- glam's Mat4::transform_point3: x_axis·x + y_axis·y + z_axis·z + w_axis,
truncated to its xyz components (no perspective divide; the matrix's bottom
row is ignored, as in the release build of glam). -/
def transform_point3 (m : Mat4Q) (v : Vec3Q) : Vec3Q :=
  { x := m.x_axis.x * v.x + m.y_axis.x * v.y + m.z_axis.x * v.z + m.w_axis.x
    y := m.x_axis.y * v.x + m.y_axis.y * v.y + m.z_axis.y * v.z + m.w_axis.y
    z := m.x_axis.z * v.x + m.y_axis.z * v.y + m.z_axis.z * v.z + m.w_axis.z }

/-- The 8 corners of the axis-aligned box, in the order the source lists
them. -/
def box_corners (mn mx : Vec3Q) : List Vec3Q :=
  [⟨mn.x, mn.y, mn.z⟩, ⟨mx.x, mn.y, mn.z⟩, ⟨mn.x, mx.y, mn.z⟩, ⟨mx.x, mx.y, mn.z⟩,
   ⟨mn.x, mn.y, mx.z⟩, ⟨mx.x, mn.y, mx.z⟩, ⟨mn.x, mx.y, mx.z⟩, ⟨mx.x, mx.y, mx.z⟩]

/-- The per-corner visibility test of CADOptimizer::check_box_in_frustum:
after transforming the corner, x and y must lie in [−z, z] and z in
[−1, 1]. -/
def corner_inside (view_proj : Mat4Q) (c : Vec3Q) : Bool :=
  let p := transform_point3 view_proj c
  decide (-p.z ≤ p.x) && decide (p.x ≤ p.z) &&
  decide (-p.z ≤ p.y) && decide (p.y ≤ p.z) &&
  decide ((-1 : ℚ) ≤ p.z) && decide (p.z ≤ 1)

/-- CADOptimizer::check_box_in_frustum — returns true as soon as any of the
8 corners passes the test, false when none does. -/
def check_box_in_frustum (mn mx : Vec3Q) (view_proj : Mat4Q) : Bool :=
  (box_corners mn mx).any (corner_inside view_proj)

/-- The identity view-projection matrix. -/
def mat4_identity : Mat4Q :=
  ⟨⟨1, 0, 0, 0⟩, ⟨0, 1, 0, 0⟩, ⟨0, 0, 1, 0⟩, ⟨0, 0, 0, 1⟩⟩

/-- One triangle of the index buffer: the three u32 entries
indices[t*3], indices[t*3+1], indices[t*3+2] (always in bounds for
t < indices.length / 3, so the default is never used). -/
def tri (indices : List ℕ) (t : ℕ) : List ℕ :=
  [indices.getD (t * 3) 0, indices.getD (t * 3 + 1) 0, indices.getD (t * 3 + 2) 0]

/-- The body of the decimation loop: push the three indices of triangle t
only while fewer than cap = target_triangles * 3 entries have been
collected. -/
def pushTri (indices : List ℕ) (cap : ℕ) (acc : List ℕ) (t : ℕ) : List ℕ :=
  if acc.length < cap then acc ++ tri indices t else acc

/-- The iterator (0..tc).step_by(step): 0, step, 2·step, … below tc. -/
def stepPositions (tc step : ℕ) : List ℕ :=
  List.range' 0 ((tc + step - 1) / step) step

/-- CADOptimizer::perform_decimation.  target_triangles is
(tc as f32 * ratio).max(1.0) as usize — a max with 1 followed by the
truncating float-to-usize cast — and step is
(tc as f32 / target as f32).max(1.0) as usize. -/
def perform_decimation (vertices : List ℚ) (indices : List ℕ) (ratio : ℚ) :
    MeshData :=
  let triangle_count := indices.length / 3
  let target_triangles := ⌊max ((triangle_count : ℚ) * ratio) 1⌋₊
  let step := ⌊max ((triangle_count : ℚ) / (target_triangles : ℚ)) 1⌋₊
  { vertices := vertices
    indices := (stepPositions triangle_count step).foldl
      (pushTri indices (target_triangles * 3)) [] }

/-- CADOptimizer::decimate_mesh — the exported wrapper; buffer marshalling
and result serialization are host glue modelled as the identity /
always-Ok, and &self is unused. -/
def decimate_mesh (vertices : List ℚ) (indices : List ℕ) (ratio : ℚ) :
    Except String MeshData :=
  Except.ok (perform_decimation vertices indices ratio)

/-- Decimation as claim C1 words it: targetTriangles =
max(1, round(triangleCount * ratio)), triangles taken at positions
0, stride, 2·stride, … (stride = max(1, floor(tc/target)), from §4.2)
until targetTriangles are collected or the source is exhausted, vertices
copied verbatim. -/
def decimate_claim (vertices : List ℚ) (indices : List ℕ) (ratio : ℚ) :
    MeshData :=
  let triangle_count := indices.length / 3
  let target_triangles := (max 1 (round ((triangle_count : ℚ) * ratio))).toNat
  let stride := max 1 (triangle_count / target_triangles)
  { vertices := vertices
    indices := ((stepPositions triangle_count stride).take target_triangles).flatMap
      (tri indices) }

/-- Decimation as the counterexample forces the claim to be amended:
identical to decimate_claim except that targetTriangles truncates
(max(1, trunc(triangleCount * ratio))) instead of rounding. -/
def decimate_spec (vertices : List ℚ) (indices : List ℕ) (ratio : ℚ) :
    MeshData :=
  let triangle_count := indices.length / 3
  let target_triangles := max 1 ⌊(triangle_count : ℚ) * ratio⌋₊
  let stride := max 1 (triangle_count / target_triangles)
  { vertices := vertices
    indices := ((stepPositions triangle_count stride).take target_triangles).flatMap
      (tri indices) }

/-- The u32 modulus: the index shift in the union stub is a u32 addition,
which wraps at 2^32 on the wasm32 release build. -/
def U32_SIZE : ℕ := 4294967296

/-- CADOptimizer::perform_boolean_union — the placeholder union: clone A's
buffers, append B's vertices, and push B's indices shifted by A's vertex
count (result_vertices.len() / 3 before the extend). -/
def perform_boolean_union (mesh_a mesh_b : MeshData) : MeshData :=
  let vertex_offset := mesh_a.vertices.length / 3
  { vertices := mesh_a.vertices ++ mesh_b.vertices
    indices := mesh_a.indices ++
      mesh_b.indices.map (fun idx => (idx + vertex_offset) % U32_SIZE) }

/-- CADOptimizer::perform_boolean_subtract — returns mesh A unchanged. -/
def perform_boolean_subtract (mesh_a _mesh_b : MeshData) : MeshData :=
  mesh_a

/-- CADOptimizer::perform_boolean_intersect — truncates A's buffers to the
shorter of the corresponding lengths of A and B. -/
def perform_boolean_intersect (mesh_a mesh_b : MeshData) : MeshData :=
  { vertices := mesh_a.vertices.take (min mesh_a.vertices.length mesh_b.vertices.length)
    indices := mesh_a.indices.take (min mesh_a.indices.length mesh_b.indices.length) }

/-- CADOptimizer::boolean_operation — dispatch on the operation name (mesh
parsing and result serialization are host glue, modelled as already-parsed
meshes and an always-successful serialization). -/
def boolean_operation (operation : String) (mesh_a mesh_b : MeshData) :
    Except String MeshData :=
  if operation = r"union" then Except.ok (perform_boolean_union mesh_a mesh_b)
  else if operation = r"subtract" then Except.ok (perform_boolean_subtract mesh_a mesh_b)
  else if operation = r"intersect" then Except.ok (perform_boolean_intersect mesh_a mesh_b)
  else Except.error (r"Invalid boolean operation")

/-- An f32 value for the normal computation: exact finite rationals plus
the IEEE special values.  The propagation rules below follow IEEE 754 (and
the wasm32 release build of glam, where glam_assert is disabled); the model
has a single unsigned zero. -/
inductive F where
  | finite (q : ℚ)
  | inf
  | neginf
  | nan
deriving DecidableEq

/-- IEEE addition on F: nan propagates, opposite infinities give nan. -/
def F.add : F → F → F
  | F.nan, _ => F.nan
  | _, F.nan => F.nan
  | F.inf, F.neginf => F.nan
  | F.neginf, F.inf => F.nan
  | F.inf, _ => F.inf
  | _, F.inf => F.inf
  | F.neginf, _ => F.neginf
  | _, F.neginf => F.neginf
  | F.finite a, F.finite b => F.finite (a + b)

/-- IEEE negation on F. -/
def F.neg : F → F
  | F.finite a => F.finite (-a)
  | F.inf => F.neginf
  | F.neginf => F.inf
  | F.nan => F.nan

/-- IEEE subtraction on F. -/
def F.sub (a b : F) : F :=
  F.add a (F.neg b)

/-- IEEE multiplication on F: nan propagates, infinity times zero is nan. -/
def F.mul : F → F → F
  | F.nan, _ => F.nan
  | _, F.nan => F.nan
  | F.finite a, F.finite b => F.finite (a * b)
  | F.inf, F.inf => F.inf
  | F.inf, F.neginf => F.neginf
  | F.neginf, F.inf => F.neginf
  | F.neginf, F.neginf => F.inf
  | F.inf, F.finite b => if 0 < b then F.inf else if b < 0 then F.neginf else F.nan
  | F.finite a, F.inf => if 0 < a then F.inf else if a < 0 then F.neginf else F.nan
  | F.neginf, F.finite b => if 0 < b then F.neginf else if b < 0 then F.inf else F.nan
  | F.finite a, F.neginf => if 0 < a then F.neginf else if a < 0 then F.inf else F.nan

/-- IEEE division on F (unsigned zero: a positive value over zero is +inf,
as arises for 1/length with length = 0). -/
def F.div : F → F → F
  | F.nan, _ => F.nan
  | _, F.nan => F.nan
  | F.finite a, F.finite b =>
      if b = 0 then (if 0 < a then F.inf else if a < 0 then F.neginf else F.nan)
      else F.finite (a / b)
  | F.finite _, F.inf => F.finite 0
  | F.finite _, F.neginf => F.finite 0
  | F.inf, F.finite b => if 0 ≤ b then F.inf else F.neginf
  | F.neginf, F.finite b => if 0 ≤ b then F.neginf else F.inf
  | F.inf, _ => F.nan
  | F.neginf, _ => F.nan

/-- IEEE comparison a > b on F: any comparison with nan is false. -/
def F.gt : F → F → Bool
  | F.nan, _ => false
  | _, F.nan => false
  | F.inf, F.inf => false
  | F.inf, _ => true
  | _, F.inf => false
  | F.neginf, F.neginf => false
  | _, F.neginf => true
  | F.neginf, _ => false
  | F.finite a, F.finite b => decide (b < a)

/-- Componentwise vector subtraction (glam Vec3 sub) on F triples. -/
def subV (a b : F × F × F) : F × F × F :=
  (F.sub a.1 b.1, F.sub a.2.1 b.2.1, F.sub a.2.2 b.2.2)

/-- glam Vec3::cross on F triples:
(a.y·b.z − a.z·b.y, a.z·b.x − a.x·b.z, a.x·b.y − a.y·b.x). -/
def crossV (a b : F × F × F) : F × F × F :=
  (F.sub (F.mul a.2.1 b.2.2) (F.mul a.2.2 b.2.1),
   F.sub (F.mul a.2.2 b.1) (F.mul a.1 b.2.2),
   F.sub (F.mul a.1 b.2.1) (F.mul a.2.1 b.1))

/-- The squared length x·x + y·y + z·z (glam's dot of a vector with
itself, summed left to right). -/
def dotSelf (v : F × F × F) : F :=
  F.add (F.add (F.mul v.1 v.1) (F.mul v.2.1 v.2.1)) (F.mul v.2.2 v.2.2)

/-- glam Vec3::normalize: self * (1 / length), length = sqrt(dot self self).
No zero guard: at a zero vector this is 0 * (1/0) = 0 * inf = nan.  The f32
square root is abstracted as the parameter sqrtf. -/
def normalizeV (sqrtf : F → F) (v : F × F × F) : F × F × F :=
  let len := sqrtf (dotSelf v)
  let recip := F.div (F.finite 1) len
  (F.mul v.1 recip, F.mul v.2.1 recip, F.mul v.2.2 recip)

/-- Read vertex idx from the flat buffer: vertices[idx*3],
vertices[idx*3+1], vertices[idx*3+2]; none models the Rust index panic. -/
def readVert (vertices : List F) (idx : ℕ) : Option (F × F × F) := do
  let x ← vertices[idx * 3]?
  let y ← vertices[idx * 3 + 1]?
  let z ← vertices[idx * 3 + 2]?
  pure (x, y, z)

/-- normals[i] += x at a checked position (the Rust indexed write panics
out of bounds; in-bounds it adds componentwise). -/
def addAt (normals : List F) (i : ℕ) (x : F) : Option (List F) :=
  match normals[i]? with
  | none => none
  | some old => some (normals.set i (F.add old x))

/-- Accumulate one face normal n into the three accumulator slots of
vertex idx. -/
def addVec (normals : List F) (idx : ℕ) (n : F × F × F) : Option (List F) := do
  let ns1 ← addAt normals (idx * 3) n.1
  let ns2 ← addAt ns1 (idx * 3 + 1) n.2.1
  addAt ns2 (idx * 3 + 2) n.2.2

/-- The per-triangle body of compute_smooth_normals: read the three
vertices, form the normalized cross of the edges, and accumulate it into
the accumulators of all three vertices (in source order). -/
def accTri (sqrtf : F → F) (vertices : List F) (normals : List F)
    (t : ℕ × ℕ × ℕ) : Option (List F) := do
  let v1 ← readVert vertices t.1
  let v2 ← readVert vertices t.2.1
  let v3 ← readVert vertices t.2.2
  let edge1 := subV v2 v1
  let edge2 := subV v3 v1
  let normal := normalizeV sqrtf (crossV edge1 edge2)
  let ns1 ← addVec normals t.1 normal
  let ns2 ← addVec ns1 t.2.1 normal
  addVec ns2 t.2.2 normal

/-- The triangles of the index buffer: for each i < indices.len()/3 the
triple (indices[i*3], indices[i*3+1], indices[i*3+2]) — always in bounds,
so the getD default is never used. -/
def triangleList (indices : List ℕ) : List (ℕ × ℕ × ℕ) :=
  (List.range (indices.length / 3)).map (fun t =>
    (indices.getD (t * 3) 0, indices.getD (t * 3 + 1) 0, indices.getD (t * 3 + 2) 0))

/-- One iteration of the final loop of compute_smooth_normals: divide
vertex i's accumulator by its length when length > 0.0, else leave it
unchanged (the zero guard).  All positions are in bounds, so getD/set are
exact. -/
def normalizeStep (sqrtf : F → F) (ns : List F) (i : ℕ) : List F :=
  let nx := ns.getD (i * 3) (F.finite 0)
  let ny := ns.getD (i * 3 + 1) (F.finite 0)
  let nz := ns.getD (i * 3 + 2) (F.finite 0)
  let len := sqrtf (F.add (F.add (F.mul nx nx) (F.mul ny ny)) (F.mul nz nz))
  if F.gt len (F.finite 0) then
    ((ns.set (i * 3) (F.div nx len)).set (i * 3 + 1) (F.div ny len)).set
      (i * 3 + 2) (F.div nz len)
  else ns

/-- The final loop of compute_smooth_normals over all vertices. -/
def normalizeAll (sqrtf : F → F) (vertex_count : ℕ) (normals : List F) :
    List F :=
  (List.range vertex_count).foldl (normalizeStep sqrtf) normals

/-- CADOptimizer::compute_smooth_normals: accumulators start at vec![0.0;
vertices.len()], every triangle's normalized face normal is accumulated,
then each vertex accumulator is normalized under the length > 0.0 guard.
none models the Rust index panic on an out-of-range index. -/
def compute_smooth_normals (sqrtf : F → F) (vertices : List F)
    (indices : List ℕ) : Option (List F) := do
  let ns ← (triangleList indices).foldlM (accTri sqrtf vertices)
    (List.replicate vertices.length (F.finite 0))
  pure (normalizeAll sqrtf (vertices.length / 3) ns)

/-- CADOptimizer::calculate_normals — the exported wrapper: on normal
completion it returns the buffer (Ok); an index panic aborts the call
(none).  It never constructs an error value. -/
def calculate_normals (sqrtf : F → F) (vertices : List F) (indices : List ℕ) :
    Option (Except String (List F)) :=
  (compute_smooth_normals sqrtf vertices indices).map Except.ok

/-- A concrete f32 square root stand-in agreeing with IEEE at the two
points the degenerate-triangle run evaluates it (0 and nan); used only to
instantiate the abstract sqrtf in witnesses. -/
def sqrtAtZero (x : F) : F :=
  if x = F.finite 0 then F.finite 0 else F.nan

/-- The literal reading of claim C3: every index-consuming operation
rejects a buffer containing an index value ≥ vertices.length/3 with an
explicit IndexOutOfRange error result instead of reading out of bounds. -/
def rejects_oob_claim : Prop :=
  (∀ (vd : List ℚ) (id : List ℕ) (ratio : ℚ),
    (∃ j, j < id.length ∧ vd.length / 3 ≤ id.getD j 0) →
    ∃ e, decimate_mesh vd id ratio = Except.error e) ∧
  (∀ (sqrtf : F → F) (v : List F) (indices : List ℕ),
    (∃ j, j < indices.length ∧ v.length / 3 ≤ indices.getD j 0) →
    ∃ e, calculate_normals sqrtf v indices = some (Except.error e))

/-- C9: updateStats(fps, frameTime, triangles, drawCalls) overwrites exactly
the four fields fps, frame_time, triangle_count, draw_calls of FrameStats
and leaves memory_usage, gpu_usage and the QualitySettings unchanged. -/
theorem update_stats_exact_fields (o : CADOptimizer) (fps frame_time : ℚ)
    (triangles draw_calls : ℕ) :
    (update_stats o fps frame_time triangles draw_calls).stats.fps = fps ∧
    (update_stats o fps frame_time triangles draw_calls).stats.frame_time = frame_time ∧
    (update_stats o fps frame_time triangles draw_calls).stats.triangle_count = triangles ∧
    (update_stats o fps frame_time triangles draw_calls).stats.draw_calls = draw_calls ∧
    (update_stats o fps frame_time triangles draw_calls).stats.memory_usage = o.stats.memory_usage ∧
    (update_stats o fps frame_time triangles draw_calls).stats.gpu_usage = o.stats.gpu_usage ∧
    (update_stats o fps frame_time triangles draw_calls).settings = o.settings :=
  ⟨rfl, rfl, rfl, rfl, rfl, rfl, rfl⟩

/-- C8: configure with a payload that fails to parse surfaces the parse
error and leaves the held QualitySettings (indeed the whole optimizer state)
identical to their prior value — no partial mutation. -/
theorem configure_parse_failure_keeps_settings (o : CADOptimizer) (e : String) :
    (configure o (Except.error e)).1 = o ∧
    (configure o (Except.error e)).1.settings = o.settings ∧
    (configure o (Except.error e)).2 = Except.error ((r"Failed to parse config: ") ++ e) :=
  ⟨rfl, rfl, rfl⟩

/-- C4: calculate_optimal_settings is a three-zone controller: fps below
0.8·target lowers resolution_scale to max(0.5, scale·0.9) and adds 0.1 to
lod_bias; fps above 1.2·target raises resolution_scale to min(1.0, scale·1.1)
and lowers lod_bias to max(0.0, bias − 0.05); in the dead zone
[0.8·target, 1.2·target] the state is unchanged. -/
theorem calculate_optimal_settings_three_zone (o : CADOptimizer) :
    (o.stats.fps < 0.8 * (o.settings.target_fps : ℚ) →
      (calculate_optimal_settings o).settings.resolution_scale =
        max 0.5 (o.settings.resolution_scale * 0.9) ∧
      (calculate_optimal_settings o).settings.lod_bias =
        o.settings.lod_bias + 0.1) ∧
    (o.stats.fps > 1.2 * (o.settings.target_fps : ℚ) →
      (calculate_optimal_settings o).settings.resolution_scale =
        min 1 (o.settings.resolution_scale * 1.1) ∧
      (calculate_optimal_settings o).settings.lod_bias =
        max 0 (o.settings.lod_bias - 0.05)) ∧
    (0.8 * (o.settings.target_fps : ℚ) ≤ o.stats.fps →
      o.stats.fps ≤ 1.2 * (o.settings.target_fps : ℚ) →
      calculate_optimal_settings o = o) := by
  unfold calculate_optimal_settings
  refine ⟨fun hlow => ?_, fun hhigh => ?_, fun h1 h2 => ?_⟩
  · rw [if_pos (by linarith)]
    exact ⟨max_comm _ _, rfl⟩
  · rw [if_neg (by push_neg; linarith), if_pos (by linarith)]
    exact ⟨min_comm _ _, max_comm _ _⟩
  · rw [if_neg (by push_neg; linarith), if_neg (by push_neg; linarith)]

/-- Witness for C4: the default optimizer brought to fps = 60 with
target_fps = 60 sits in the dead zone and is left unchanged. -/
theorem calculate_optimal_settings_three_zone_witness :
    (0.8 * (((update_stats create 60 16 100 5).settings.target_fps : ℚ)) ≤
      (update_stats create 60 16 100 5).stats.fps) ∧
    ((update_stats create 60 16 100 5).stats.fps ≤
      1.2 * (((update_stats create 60 16 100 5).settings.target_fps : ℚ))) ∧
    calculate_optimal_settings (update_stats create 60 16 100 5) =
      update_stats create 60 16 100 5 := by
  have h1 : (0.8 * (((update_stats create 60 16 100 5).settings.target_fps : ℚ)) ≤
      (update_stats create 60 16 100 5).stats.fps) := by
    show (0.8 : ℚ) * ((60 : ℕ) : ℚ) ≤ 60
    norm_num
  have h2 : ((update_stats create 60 16 100 5).stats.fps ≤
      1.2 * (((update_stats create 60 16 100 5).settings.target_fps : ℚ))) := by
    show (60 : ℚ) ≤ 1.2 * ((60 : ℕ) : ℚ)
    norm_num
  exact ⟨h1, h2,
    (calculate_optimal_settings_three_zone (update_stats create 60 16 100 5)).2.2 h1 h2⟩

/-- C5: calculate_lod_levels returns exactly num_levels(complexity) levels
(4 above 100000, 3 above 10000, else 2), level i carrying
detail_ratio = 1 − i/numLevels and distance = 50·(i+1)·(1+lod_bias); at
complexity 200000 it returns 4 levels and at 500 it returns 2; with the
domain invariant lod_bias ≥ 0 the distances strictly increase and the
detail ratios strictly decrease with the index. -/
theorem calculate_lod_levels_spec (o : CADOptimizer) (complexity : ℕ) :
    (calculate_lod_levels o complexity).length =
      (if complexity > 100000 then 4 else if complexity > 10000 then 3 else 2) ∧
    (∀ i, i < num_levels complexity →
      (calculate_lod_levels o complexity).getD i ⟨0, 0⟩ =
        { distance := (50 * ((i : ℚ) + 1)) * (1 + o.settings.lod_bias)
          detail_ratio := 1 - (i : ℚ) / (num_levels complexity : ℚ) }) ∧
    (calculate_lod_levels o 200000).length = 4 ∧
    (calculate_lod_levels o 500).length = 2 ∧
    (0 ≤ o.settings.lod_bias →
      ∀ i j, i < j → j < num_levels complexity →
        ((calculate_lod_levels o complexity).getD i ⟨0, 0⟩).distance <
          ((calculate_lod_levels o complexity).getD j ⟨0, 0⟩).distance ∧
        ((calculate_lod_levels o complexity).getD j ⟨0, 0⟩).detail_ratio <
          ((calculate_lod_levels o complexity).getD i ⟨0, 0⟩).detail_ratio) := by
  have hlen : (calculate_lod_levels o complexity).length = num_levels complexity := by
    simp only [calculate_lod_levels, List.length_map, List.length_range]
  have hget : ∀ i, i < num_levels complexity →
      (calculate_lod_levels o complexity).getD i ⟨0, 0⟩ =
        { distance := (50 * ((i : ℚ) + 1)) * (1 + o.settings.lod_bias)
          detail_ratio := 1 - (i : ℚ) / (num_levels complexity : ℚ) } := by
    intro i hi
    simp only [calculate_lod_levels, List.getD_eq_getElem?_getD, List.getElem?_map,
      List.getElem?_range hi]
    rfl
  have hpos : 0 < num_levels complexity := by
    unfold num_levels
    split
    · norm_num
    · split <;> norm_num
  have hlen2 : ∀ c, (calculate_lod_levels o c).length = num_levels c := by
    intro c
    simp only [calculate_lod_levels, List.length_map, List.length_range]
  refine ⟨by rw [hlen]; rfl, hget, by rw [hlen2]; rfl, by rw [hlen2]; rfl,
    fun hbias i j hij hj => ?_⟩
  rw [hget i (lt_trans hij hj), hget j hj]
  constructor
  · have h1 : (0 : ℚ) < 1 + o.settings.lod_bias := by linarith
    have h2 : (i : ℚ) < (j : ℚ) := by exact_mod_cast hij
    show (50 * ((i : ℚ) + 1)) * (1 + o.settings.lod_bias) <
      (50 * ((j : ℚ) + 1)) * (1 + o.settings.lod_bias)
    nlinarith
  · have hn : (0 : ℚ) < (num_levels complexity : ℚ) := by exact_mod_cast hpos
    have h2 : (i : ℚ) < (j : ℚ) := by exact_mod_cast hij
    have hlt : (i : ℚ) / (num_levels complexity : ℚ) <
        (j : ℚ) / (num_levels complexity : ℚ) := (div_lt_div_iff_of_pos_right hn).mpr h2
    show 1 - (j : ℚ) / (num_levels complexity : ℚ) <
      1 - (i : ℚ) / (num_levels complexity : ℚ)
    linarith

/-- Witness for C5: at the default optimizer (lod_bias = 0) and complexity
200000, level 0 is nearer and finer than level 1. -/
theorem calculate_lod_levels_spec_witness :
    ((0 : ℚ) ≤ create.settings.lod_bias) ∧ 0 < 1 ∧ 1 < num_levels 200000 ∧
    ((calculate_lod_levels create 200000).getD 0 ⟨0, 0⟩).distance <
      ((calculate_lod_levels create 200000).getD 1 ⟨0, 0⟩).distance ∧
    ((calculate_lod_levels create 200000).getD 1 ⟨0, 0⟩).detail_ratio <
      ((calculate_lod_levels create 200000).getD 0 ⟨0, 0⟩).detail_ratio := by
  have hb : (0 : ℚ) ≤ create.settings.lod_bias := le_refl 0
  have h01 : (0 : ℕ) < 1 := Nat.zero_lt_one
  have h1n : 1 < num_levels 200000 := by norm_num [num_levels]
  have h := (calculate_lod_levels_spec create 200000).2.2.2.2 hb 0 1 h01 h1n
  exact ⟨hb, h01, h1n, h.1, h.2⟩

/-- C6: check_box_in_frustum returns true iff at least one of the 8
transformed box corners (x, y, z) satisfies −z ≤ x ≤ z, −z ≤ y ≤ z and
−1 ≤ z ≤ 1; consequently a box all of whose transformed corners have
negative z returns false, and the degenerate box at the origin under the
identity view-projection returns true. -/
theorem check_box_in_frustum_spec (mn mx : Vec3Q) (m : Mat4Q) :
    (check_box_in_frustum mn mx m = true ↔
      ∃ c ∈ box_corners mn mx,
        -(transform_point3 m c).z ≤ (transform_point3 m c).x ∧
        (transform_point3 m c).x ≤ (transform_point3 m c).z ∧
        -(transform_point3 m c).z ≤ (transform_point3 m c).y ∧
        (transform_point3 m c).y ≤ (transform_point3 m c).z ∧
        (-1 : ℚ) ≤ (transform_point3 m c).z ∧ (transform_point3 m c).z ≤ 1) ∧
    ((∀ c ∈ box_corners mn mx, (transform_point3 m c).z < 0) →
      check_box_in_frustum mn mx m = false) ∧
    check_box_in_frustum ⟨0, 0, 0⟩ ⟨0, 0, 0⟩ mat4_identity = true := by
  have hiff : check_box_in_frustum mn mx m = true ↔
      ∃ c ∈ box_corners mn mx,
        -(transform_point3 m c).z ≤ (transform_point3 m c).x ∧
        (transform_point3 m c).x ≤ (transform_point3 m c).z ∧
        -(transform_point3 m c).z ≤ (transform_point3 m c).y ∧
        (transform_point3 m c).y ≤ (transform_point3 m c).z ∧
        (-1 : ℚ) ≤ (transform_point3 m c).z ∧ (transform_point3 m c).z ≤ 1 := by
    simp [check_box_in_frustum, corner_inside, and_assoc]
  have horigin : check_box_in_frustum ⟨0, 0, 0⟩ ⟨0, 0, 0⟩ mat4_identity = true := by
    norm_num [check_box_in_frustum, box_corners, corner_inside, transform_point3,
      mat4_identity]
  refine ⟨hiff, fun hneg => ?_, horigin⟩
  cases hb : check_box_in_frustum mn mx m with
  | false => rfl
  | true =>
    obtain ⟨c, hc, h1, h2, _⟩ := hiff.mp hb
    have hz : (0 : ℚ) ≤ (transform_point3 m c).z := by linarith
    exact absurd (hneg c hc) (not_lt.mpr hz)

/-- Witness for C6: a degenerate box at (0,0,−5) under the identity matrix
has every transformed corner at z = −5 < 0, and the test returns false. -/
theorem check_box_in_frustum_spec_witness :
    (∀ c ∈ box_corners ⟨0, 0, -5⟩ ⟨0, 0, -5⟩,
      (transform_point3 mat4_identity c).z < 0) ∧
    check_box_in_frustum ⟨0, 0, -5⟩ ⟨0, 0, -5⟩ mat4_identity = false := by
  have h : ∀ c ∈ box_corners ⟨0, 0, -5⟩ ⟨0, 0, -5⟩,
      (transform_point3 mat4_identity c).z < 0 := by
    norm_num [box_corners, transform_point3, mat4_identity]
  exact ⟨h, (check_box_in_frustum_spec ⟨0, 0, -5⟩ ⟨0, 0, -5⟩ mat4_identity).2.1 h⟩

/-- Truncating after the max with 1 equals applying max 1 after
truncating: the float idiom (x).max(1.0) as usize agrees with
max(1, trunc x). -/
theorem natFloor_max_one (x : ℚ) : ⌊max x 1⌋₊ = max 1 ⌊x⌋₊ := by
  rcases le_total x 1 with h | h
  · rw [max_eq_right h, Nat.floor_one]
    have hx : ⌊x⌋₊ ≤ 1 := by
      have := Nat.floor_le_floor h
      simpa using this
    omega
  · rw [max_eq_left h]
    have hx : 1 ≤ ⌊x⌋₊ := by
      have := Nat.floor_le_floor h
      simpa using this
    omega

/-- The truncated rational quotient of two naturals is their natural
division. -/
theorem natFloor_cast_div (a b : ℕ) : ⌊(a : ℚ) / (b : ℚ)⌋₊ = a / b := by
  rw [Nat.floor_div_nat ((a : ℚ)) b, Nat.floor_natCast]

/-- The capped push loop of perform_decimation collects exactly the first
target triangles of the visited positions: folding pushTri with capacity
target·3 over any position list appends the triangles of the first
(target − k) positions when 3·k entries are already collected. -/
theorem foldl_pushTri (indices : List ℕ) (target : ℕ) :
    ∀ (ps acc : List ℕ) (k : ℕ), acc.length = 3 * k →
      ps.foldl (pushTri indices (target * 3)) acc =
        acc ++ (ps.take (target - k)).flatMap (tri indices)
  | [], acc, k, _ => by simp
  | p :: ps, acc, k, hk => by
    by_cases hlt : k < target
    · have hguard : acc.length < target * 3 := by omega
      have hstep : pushTri indices (target * 3) acc p = acc ++ tri indices p := by
        simp [pushTri, hguard]
      have hlen : (acc ++ tri indices p).length = 3 * (k + 1) := by
        simp [tri, hk]
        omega
      have htake : target - k = (target - (k + 1)) + 1 := by omega
      rw [List.foldl_cons, hstep,
        foldl_pushTri indices target ps (acc ++ tri indices p) (k + 1) hlen,
        htake, List.take_succ_cons, List.flatMap_cons, List.append_assoc]
    · have hguard : ¬ acc.length < target * 3 := by omega
      have hstep : pushTri indices (target * 3) acc p = acc := by
        simp [pushTri, hguard]
      have h0 : target - k = 0 := by omega
      rw [List.foldl_cons, hstep, foldl_pushTri indices target ps acc k hk, h0]
      simp [h0]

/-- C1 (amended): perform_decimation equals the spec-level description with
a truncating targetTriangles — triangleCount = indices.length / 3,
targetTriangles = max(1, trunc(triangleCount · ratio)),
stride = max(1, floor(triangleCount / targetTriangles)), triangles taken at
positions 0, stride, 2·stride, … until targetTriangles are collected or the
source is exhausted, and the vertex buffer returned verbatim. -/
theorem perform_decimation_eq_spec (vertices : List ℚ) (indices : List ℕ)
    (ratio : ℚ) :
    perform_decimation vertices indices ratio =
      decimate_spec vertices indices ratio := by
  simp only [perform_decimation, decimate_spec]
  rw [natFloor_max_one, natFloor_max_one, natFloor_cast_div,
    foldl_pushTri indices _ _ [] 0 rfl]
  simp

/-- C1 (counterexample): at 11 input triangles (indices 0..32) and
ratio = 1/2 the code keeps trunc(5.5) = 5 triangles (positions 0,2,4,6,8)
while the claim's round(5.5) = 6 would keep 6 (positions 0..5), so
decimate and the claim's description differ at this input. -/
theorem perform_decimation_round_cex :
    perform_decimation [] (List.range 33) (1/2) ≠
      decimate_claim [] (List.range 33) (1/2) := by
  have e1 : (List.range 33).length / 3 = 11 := by simp
  have e2 : ⌊max (((11 : ℕ) : ℚ) * (1/2)) 1⌋₊ = 5 := by
    rw [show (((11 : ℕ) : ℚ) * (1/2)) = 11/2 by push_cast; ring]
    rw [max_eq_left (by norm_num), Nat.floor_eq_iff (by norm_num)]
    norm_num
  have e3 : ⌊max (((11 : ℕ) : ℚ) / ((5 : ℕ) : ℚ)) 1⌋₊ = 2 := by
    rw [show (((11 : ℕ) : ℚ) / ((5 : ℕ) : ℚ)) = 11/5 by push_cast; ring]
    rw [max_eq_left (by norm_num), Nat.floor_eq_iff (by norm_num)]
    norm_num
  have e4 : (max 1 (round (((11 : ℕ) : ℚ) * (1/2)))).toNat = 6 := by
    rw [show (((11 : ℕ) : ℚ) * (1/2)) = 11/2 by push_cast; ring]
    rw [round_eq, show (11/2 + 1/2 : ℚ) = 6 by norm_num]
    rw [show ⌊(6 : ℚ)⌋ = 6 by rw [Int.floor_eq_iff]; norm_num]
    rfl
  have hcode : perform_decimation [] (List.range 33) (1/2) =
      { vertices := []
        indices := [0, 1, 2, 6, 7, 8, 12, 13, 14, 18, 19, 20, 24, 25, 26] } := by
    simp only [perform_decimation]
    rw [e1, e2, e3]
    congr 1
  have hclaim : decimate_claim [] (List.range 33) (1/2) =
      { vertices := []
        indices := [0, 1, 2, 3, 4, 5, 6, 7, 8, 9, 10, 11, 12, 13, 14, 15, 16, 17] } := by
    simp only [decimate_claim]
    rw [e1, e4]
    congr 1
  rw [hcode, hclaim]
  simp

/-- C7 (amended): union concatenates the vertex buffers and appends B's
indices offset by A's vertex count modulo 2^32 (u32 wrap-around — equal to
the plain offset whenever idx + offset < 2^32); subtract returns A
unchanged; intersect truncates A's buffers to the shorter lengths; any
other operation name fails with the invalid-operation error. -/
theorem boolean_operation_cases (mesh_a mesh_b : MeshData) (op : String) :
    boolean_operation (r"union") mesh_a mesh_b = Except.ok
      { vertices := mesh_a.vertices ++ mesh_b.vertices
        indices := mesh_a.indices ++ mesh_b.indices.map
          (fun idx => (idx + mesh_a.vertices.length / 3) % U32_SIZE) } ∧
    boolean_operation (r"subtract") mesh_a mesh_b = Except.ok mesh_a ∧
    boolean_operation (r"intersect") mesh_a mesh_b = Except.ok
      { vertices := mesh_a.vertices.take (min mesh_a.vertices.length mesh_b.vertices.length)
        indices := mesh_a.indices.take (min mesh_a.indices.length mesh_b.indices.length) } ∧
    (op ≠ r"union" → op ≠ r"subtract" → op ≠ r"intersect" →
      boolean_operation op mesh_a mesh_b =
        Except.error (r"Invalid boolean operation")) := by
  refine ⟨?_, ?_, ?_, fun h1 h2 h3 => ?_⟩
  · simp [boolean_operation, perform_boolean_union]
  · simp [boolean_operation, perform_boolean_subtract]
  · simp [boolean_operation, perform_boolean_intersect]
  · simp [boolean_operation, h1, h2, h3]

/-- Witness for C7 (amended): the operation name scale is not one of the
three recognized names and yields the invalid-operation error. -/
theorem boolean_operation_cases_witness :
    ((r"scale") ≠ r"union") ∧ ((r"scale") ≠ r"subtract") ∧
    ((r"scale") ≠ r"intersect") ∧
    boolean_operation (r"scale") ⟨[], []⟩ ⟨[], []⟩ =
      Except.error (r"Invalid boolean operation") := by
  have h1 : (r"scale") ≠ r"union" := by decide
  have h2 : (r"scale") ≠ r"subtract" := by decide
  have h3 : (r"scale") ≠ r"intersect" := by decide
  exact ⟨h1, h2, h3,
    (boolean_operation_cases ⟨[], []⟩ ⟨[], []⟩ (r"scale")).2.2.2 h1 h2 h3⟩

/-- C7 (counterexample): with mesh A holding one vertex and mesh B's index
buffer holding u32::MAX, the pushed index wraps to 0 instead of the claim's
plain offset 2^32 — the u32 addition idx + vertex_offset overflows. -/
theorem boolean_union_offset_cex :
    boolean_operation (r"union") ⟨[0, 0, 0], []⟩ ⟨[], [4294967295]⟩ ≠
      Except.ok
        { vertices := ([0, 0, 0] : List ℚ) ++ ([] : List ℚ)
          indices := ([] : List ℕ) ++ [4294967295].map
            (fun idx => idx + ([0, 0, 0] : List ℚ).length / 3) } := by
  simp [boolean_operation, perform_boolean_union, U32_SIZE]

/-- C10: when A's vertex buffer length is a multiple of 3 and both meshes
satisfy the index invariant (every index < vertices.length / 3), the union
result satisfies it as well: B's indices are shifted by A's vertex count
(mod 2^32, which can only shrink the value), landing below the combined
vertex count. -/
theorem union_preserves_index_invariant (mesh_a mesh_b : MeshData)
    (h3 : mesh_a.vertices.length % 3 = 0)
    (hA : ∀ i ∈ mesh_a.indices, i < mesh_a.vertices.length / 3)
    (hB : ∀ i ∈ mesh_b.indices, i < mesh_b.vertices.length / 3) :
    ∀ i ∈ (perform_boolean_union mesh_a mesh_b).indices,
      i < (perform_boolean_union mesh_a mesh_b).vertices.length / 3 := by
  intro i hi
  have hlen : (perform_boolean_union mesh_a mesh_b).vertices.length =
      mesh_a.vertices.length + mesh_b.vertices.length := by
    simp [perform_boolean_union]
  rw [hlen]
  simp only [perform_boolean_union, List.mem_append, List.mem_map] at hi
  rcases hi with hi | ⟨j, hj, rfl⟩
  · have := hA i hi
    omega
  · have hjb := hB j hj
    have hmod : (j + mesh_a.vertices.length / 3) % U32_SIZE ≤
        j + mesh_a.vertices.length / 3 := Nat.mod_le _ _
    omega

/-- Witness for C10: two one-triangle meshes with valid indices unite into
a mesh whose indices are all below its vertex count. -/
theorem union_preserves_index_invariant_witness :
    ((⟨[0, 0, 0], [0]⟩ : MeshData).vertices.length % 3 = 0) ∧
    (∀ i ∈ (⟨[0, 0, 0], [0]⟩ : MeshData).indices,
      i < (⟨[0, 0, 0], [0]⟩ : MeshData).vertices.length / 3) ∧
    (∀ i ∈ (⟨[1, 1, 1], [0]⟩ : MeshData).indices,
      i < (⟨[1, 1, 1], [0]⟩ : MeshData).vertices.length / 3) ∧
    (∀ i ∈ (perform_boolean_union ⟨[0, 0, 0], [0]⟩ ⟨[1, 1, 1], [0]⟩).indices,
      i < (perform_boolean_union ⟨[0, 0, 0], [0]⟩ ⟨[1, 1, 1], [0]⟩).vertices.length / 3) := by
  have h3 : ((⟨[0, 0, 0], [0]⟩ : MeshData).vertices.length % 3 = 0) := by simp
  have hA : ∀ i ∈ (⟨[0, 0, 0], [0]⟩ : MeshData).indices,
      i < (⟨[0, 0, 0], [0]⟩ : MeshData).vertices.length / 3 := by simp
  have hB : ∀ i ∈ (⟨[1, 1, 1], [0]⟩ : MeshData).indices,
      i < (⟨[1, 1, 1], [0]⟩ : MeshData).vertices.length / 3 := by simp
  exact ⟨h3, hA, hB, union_preserves_index_invariant _ _ h3 hA hB⟩

/-- A vertex whose three accumulator slots hold nan is left unchanged by the
final normalization step, because the length comparison nan > 0.0 is false
(the zero guard does not repair nan). -/
theorem normalizeStep_nan (sqrtf : F → F) (hnan : sqrtf F.nan = F.nan)
    (ns : List F) (i : ℕ)
    (h1 : ns.getD (i * 3) (F.finite 0) = F.nan)
    (h2 : ns.getD (i * 3 + 1) (F.finite 0) = F.nan)
    (h3 : ns.getD (i * 3 + 2) (F.finite 0) = F.nan) :
    normalizeStep sqrtf ns i = ns := by
  simp only [normalizeStep, h1, h2, h3, F.mul, F.add, hnan, F.gt]
  simp

/-- C2: on the degenerate triangle with all three corners at the origin
(a duplicate-vertex, zero-area face), compute_smooth_normals outputs nan in
every slot, not the zero vector: glam's Vec3::normalize has no zero guard,
so the face normal is 0 · (1/0) = 0 · inf = nan, the nan poisons all three
vertex accumulators, and the final length > 0.0 guard is false for nan and
leaves the nan in place.  The f32 square root is abstracted: any sqrtf with
sqrt 0 = 0 and sqrt nan = nan (as IEEE requires) yields this output. -/
theorem compute_smooth_normals_degenerate_nan (sqrtf : F → F)
    (h0 : sqrtf (F.finite 0) = F.finite 0) (hnan : sqrtf F.nan = F.nan) :
    compute_smooth_normals sqrtf (List.replicate 9 (F.finite 0)) [0, 1, 2] =
      some (List.replicate 9 F.nan) := by
  have hdot : dotSelf (crossV
      (subV (F.finite 0, F.finite 0, F.finite 0) (F.finite 0, F.finite 0, F.finite 0))
      (subV (F.finite 0, F.finite 0, F.finite 0) (F.finite 0, F.finite 0, F.finite 0))) =
      F.finite 0 := by
    norm_num [dotSelf, crossV, subV, F.sub, F.add, F.neg, F.mul]
  have hnorm : normalizeV sqrtf (crossV
      (subV (F.finite 0, F.finite 0, F.finite 0) (F.finite 0, F.finite 0, F.finite 0))
      (subV (F.finite 0, F.finite 0, F.finite 0) (F.finite 0, F.finite 0, F.finite 0))) =
      (F.nan, F.nan, F.nan) := by
    simp only [normalizeV, hdot, h0]
    norm_num [F.div, F.mul, crossV, subV, F.sub, F.add, F.neg]
  have hacc : accTri sqrtf (List.replicate 9 (F.finite 0))
      (List.replicate 9 (F.finite 0)) (0, 1, 2) = some (List.replicate 9 F.nan) := by
    have key : accTri sqrtf (List.replicate 9 (F.finite 0))
        (List.replicate 9 (F.finite 0)) (0, 1, 2) =
        Option.bind (addVec (List.replicate 9 (F.finite 0)) 0
            (normalizeV sqrtf (crossV
              (subV (F.finite 0, F.finite 0, F.finite 0) (F.finite 0, F.finite 0, F.finite 0))
              (subV (F.finite 0, F.finite 0, F.finite 0) (F.finite 0, F.finite 0, F.finite 0)))))
          (fun ns1 => Option.bind (addVec ns1 1
            (normalizeV sqrtf (crossV
              (subV (F.finite 0, F.finite 0, F.finite 0) (F.finite 0, F.finite 0, F.finite 0))
              (subV (F.finite 0, F.finite 0, F.finite 0) (F.finite 0, F.finite 0, F.finite 0)))))
            (fun ns2 => addVec ns2 2
              (normalizeV sqrtf (crossV
                (subV (F.finite 0, F.finite 0, F.finite 0) (F.finite 0, F.finite 0, F.finite 0))
                (subV (F.finite 0, F.finite 0, F.finite 0) (F.finite 0, F.finite 0, F.finite 0)))))) :=
      rfl
    rw [key, hnorm]
    rfl
  have hfin : normalizeAll sqrtf 3 (List.replicate 9 F.nan) =
      List.replicate 9 F.nan := by
    have hrange : List.range 3 = [0, 1, 2] := rfl
    have hnil : List.replicate 9 F.nan =
        [F.nan, F.nan, F.nan, F.nan, F.nan, F.nan, F.nan, F.nan, F.nan] := rfl
    simp only [normalizeAll, hrange, List.foldl_cons, List.foldl_nil]
    rw [normalizeStep_nan sqrtf hnan (List.replicate 9 F.nan) 0 rfl rfl rfl,
      normalizeStep_nan sqrtf hnan (List.replicate 9 F.nan) 1 rfl rfl rfl,
      normalizeStep_nan sqrtf hnan (List.replicate 9 F.nan) 2 rfl rfl rfl]
  have key2 : compute_smooth_normals sqrtf (List.replicate 9 (F.finite 0)) [0, 1, 2] =
      Option.bind (accTri sqrtf (List.replicate 9 (F.finite 0))
        (List.replicate 9 (F.finite 0)) (0, 1, 2))
        (fun ns => some (normalizeAll sqrtf 3 ns)) := rfl
  rw [key2, hacc]
  show some (normalizeAll sqrtf 3 (List.replicate 9 F.nan)) = some (List.replicate 9 F.nan)
  rw [hfin]

/-- Witness for C2: with the concrete square root stand-in, the degenerate
triangle at the origin yields nan in all nine output slots. -/
theorem compute_smooth_normals_degenerate_nan_witness :
    sqrtAtZero (F.finite 0) = F.finite 0 ∧ sqrtAtZero F.nan = F.nan ∧
    compute_smooth_normals sqrtAtZero (List.replicate 9 (F.finite 0)) [0, 1, 2] =
      some (List.replicate 9 F.nan) := by
  have h0 : sqrtAtZero (F.finite 0) = F.finite 0 := by simp [sqrtAtZero]
  have hnan : sqrtAtZero F.nan = F.nan := by simp [sqrtAtZero]
  exact ⟨h0, hnan, compute_smooth_normals_degenerate_nan sqrtAtZero h0 hnan⟩

/-- Reading vertex idx with idx ≥ vertices.len()/3 hits an out-of-bounds
slice index (the third component at idx*3+2 is past the end), i.e. the Rust
code panics. -/
theorem readVert_oob (v : List F) (idx : ℕ) (h : v.length / 3 ≤ idx) :
    readVert v idx = none := by
  have hnone : v[idx * 3 + 2]? = none := List.getElem?_eq_none (by omega)
  unfold readVert
  cases hx : v[idx * 3]? with
  | none => rfl
  | some x =>
    cases hy : v[idx * 3 + 1]? with
    | none => rfl
    | some y =>
      show (v[idx * 3 + 2]?.bind fun z => pure (x, y, z)) = none
      rw [hnone]
      rfl

/-- A triangle with any out-of-range corner index aborts the accumulation
pass regardless of the accumulator state. -/
theorem accTri_oob (sqrtf : F → F) (v : List F) (t : ℕ × ℕ × ℕ)
    (hbad : v.length / 3 ≤ t.1 ∨ v.length / 3 ≤ t.2.1 ∨ v.length / 3 ≤ t.2.2) :
    ∀ ns, accTri sqrtf v ns t = none := by
  intro ns
  unfold accTri
  rcases hbad with h | h | h
  · rw [readVert_oob v t.1 h]
    rfl
  · cases hx : readVert v t.1 with
    | none => rfl
    | some v1 =>
      show (readVert v t.2.1).bind _ = none
      rw [readVert_oob v t.2.1 h]
      rfl
  · cases hx : readVert v t.1 with
    | none => rfl
    | some v1 =>
      cases hy : readVert v t.2.1 with
      | none => rfl
      | some v2 =>
        show (readVert v t.2.2).bind _ = none
        rw [readVert_oob v t.2.2 h]
        rfl

/-- Once some triangle of the list has an out-of-range corner, the whole
monadic fold aborts (failure is absorbing). -/
theorem foldlM_accTri_none (sqrtf : F → F) (v : List F) :
    ∀ (ts : List (ℕ × ℕ × ℕ)) (ns : List F),
      (∃ t ∈ ts, v.length / 3 ≤ t.1 ∨ v.length / 3 ≤ t.2.1 ∨ v.length / 3 ≤ t.2.2) →
      ts.foldlM (accTri sqrtf v) ns = none
  | [], _, h => by simp at h
  | t :: ts, ns, h => by
    rw [List.foldlM_cons]
    by_cases hbad : v.length / 3 ≤ t.1 ∨ v.length / 3 ≤ t.2.1 ∨ v.length / 3 ≤ t.2.2
    · rw [accTri_oob sqrtf v t hbad ns]
      rfl
    · have htail : ∃ t2 ∈ ts,
          v.length / 3 ≤ t2.1 ∨ v.length / 3 ≤ t2.2.1 ∨ v.length / 3 ≤ t2.2.2 := by
        rcases h with ⟨t2, ht2, hb⟩
        rcases List.mem_cons.mp ht2 with heq | hmem
        · subst heq
          exact absurd hb hbad
        · exact ⟨t2, hmem, hb⟩
      cases hacc : accTri sqrtf v ns t with
      | none => rfl
      | some ns2 =>
        show ts.foldlM (accTri sqrtf v) ns2 = none
        exact foldlM_accTri_none sqrtf v ts ns2 htail

/-- C3 (amended): neither operation validates index values.  decimate_mesh
returns Ok for every input — including index buffers with out-of-range
values, which are copied into the output verbatim — and
compute_smooth_normals / calculate_normals abort with an unchecked
out-of-bounds read (a Rust panic, modelled as none) whenever a complete
triangle carries an index ≥ vertices.length/3; no IndexOutOfRange error
value is ever produced. -/
theorem no_index_range_check (vd : List ℚ) (id : List ℕ) (ratio : ℚ)
    (sqrtf : F → F) (v : List F) (indices : List ℕ)
    (hoob : ∃ t, t < indices.length / 3 ∧
      (v.length / 3 ≤ indices.getD (t * 3) 0 ∨
       v.length / 3 ≤ indices.getD (t * 3 + 1) 0 ∨
       v.length / 3 ≤ indices.getD (t * 3 + 2) 0)) :
    decimate_mesh vd id ratio = Except.ok (perform_decimation vd id ratio) ∧
    compute_smooth_normals sqrtf v indices = none ∧
    calculate_normals sqrtf v indices = none := by
  have hmem : ∃ tt ∈ triangleList indices,
      v.length / 3 ≤ tt.1 ∨ v.length / 3 ≤ tt.2.1 ∨ v.length / 3 ≤ tt.2.2 := by
    rcases hoob with ⟨t, ht, hb⟩
    refine ⟨(indices.getD (t * 3) 0, indices.getD (t * 3 + 1) 0,
      indices.getD (t * 3 + 2) 0), ?_, hb⟩
    unfold triangleList
    exact List.mem_map.mpr ⟨t, List.mem_range.mpr ht, rfl⟩
  have hnone : compute_smooth_normals sqrtf v indices = none := by
    unfold compute_smooth_normals
    rw [foldlM_accTri_none sqrtf v (triangleList indices) _ hmem]
    rfl
  refine ⟨rfl, hnone, ?_⟩
  unfold calculate_normals
  rw [hnone]
  rfl

/-- Witness for C3 (amended): one triangle (0, 0, 5) over a single-vertex
buffer has 5 ≥ 1 = vertices.length/3, and the normal computation aborts
with none while decimation returns Ok. -/
theorem no_index_range_check_witness :
    (∃ t, t < ([0, 0, 5] : List ℕ).length / 3 ∧
      (([F.finite 0, F.finite 0, F.finite 0] : List F).length / 3 ≤
        ([0, 0, 5] : List ℕ).getD (t * 3) 0 ∨
       ([F.finite 0, F.finite 0, F.finite 0] : List F).length / 3 ≤
        ([0, 0, 5] : List ℕ).getD (t * 3 + 1) 0 ∨
       ([F.finite 0, F.finite 0, F.finite 0] : List F).length / 3 ≤
        ([0, 0, 5] : List ℕ).getD (t * 3 + 2) 0)) ∧
    decimate_mesh [] [] 1 = Except.ok (perform_decimation [] [] 1) ∧
    compute_smooth_normals sqrtAtZero [F.finite 0, F.finite 0, F.finite 0] [0, 0, 5] =
      none ∧
    calculate_normals sqrtAtZero [F.finite 0, F.finite 0, F.finite 0] [0, 0, 5] =
      none := by
  have hoob : ∃ t, t < ([0, 0, 5] : List ℕ).length / 3 ∧
      (([F.finite 0, F.finite 0, F.finite 0] : List F).length / 3 ≤
        ([0, 0, 5] : List ℕ).getD (t * 3) 0 ∨
       ([F.finite 0, F.finite 0, F.finite 0] : List F).length / 3 ≤
        ([0, 0, 5] : List ℕ).getD (t * 3 + 1) 0 ∨
       ([F.finite 0, F.finite 0, F.finite 0] : List F).length / 3 ≤
        ([0, 0, 5] : List ℕ).getD (t * 3 + 2) 0) :=
    ⟨0, by norm_num, Or.inr (Or.inr (by norm_num))⟩
  have h := no_index_range_check [] [] 1 sqrtAtZero
    [F.finite 0, F.finite 0, F.finite 0] [0, 0, 5] hoob
  exact ⟨hoob, h.1, h.2.1, h.2.2⟩

/-- C3 (counterexample): the claim fails at vertices = [], indices =
[5, 6, 7]: decimate_mesh returns Ok with the out-of-range indices copied
verbatim rather than any error. -/
theorem rejects_oob_claim_false : ¬ rejects_oob_claim := by
  intro h
  obtain ⟨e, he⟩ := h.1 [] [5, 6, 7] 1 ⟨0, by norm_num, by norm_num⟩
  simp [decimate_mesh] at he
